import Mathlib

/-!
Verification development for the Infinity Inspector normalization pipeline
(`loader.py`).  The definitions below are a shallow embedding of the
data-loading code: pandas column operations become list transformations,
Python exceptions become an explicit `Except` error channel, and JSON
records become Lean structures.  Line numbers in comments refer to
`src/loader.py`.
-/

/-- Failure modes of the embedded Python code.  The first four constructors
model the concrete Python exceptions the loader can raise; the last one is
the named resolution error the specification asks for, which is present so
that statements can distinguish it from the generic exceptions (the code
itself never raises it). -/
inductive PyError where
  | indexError
  | keyError
  | attributeError
  | valueError
  | idResolutionFailure
  deriving DecidableEq, Repr

/-- One record of a lookup table (pandas DataFrame with columns `id` and
`name`): the skills / weapons / equipment catalogs and the per-faction
extras catalog all have this shape. -/
structure CatEntry where
  id : Int
  name : String
  deriving DecidableEq, Repr

/-- A reference dict `{id: ..., extra: [...]}` as produced by the vendor
JSON.  A field of value `none` models the corresponding key being absent
from the Python dict. -/
structure RefDict where
  id : Option Int
  extra : Option (List Int)
  deriving DecidableEq, Repr

/-- One element of an id-reference list: either the Python value `None`
(an empty slot) or a dict. -/
inductive RefEntry where
  | null
  | dict (d : RefDict)
  deriving DecidableEq, Repr

/-- Python truthiness of a list element as tested by `if id:` on line 223:
`None` is falsy, a dict is truthy iff it is non-empty (has at least one
key). -/
def entryTruthy : RefEntry → Bool
  | .null => false
  | .dict d => d.id.isSome || d.extra.isSome

/-- Admissible behaviours of `list(set(names))` on line 224: the result
enumerates the distinct elements of the input exactly once, in an order
that CPython derives from the (seed-dependent) string hashes and that we
therefore leave abstract: any permutation of `names.dedup` is a possible
outcome. -/
def SetEnum (e : List String → List String) : Prop :=
  ∀ l : List String, (e l).Perm l.dedup

/-- One concrete admissible set enumeration: first-occurrence order. -/
def enumDedup (l : List String) : List String := l.dedup

/-- Another concrete admissible set enumeration: reversed first-occurrence
order. -/
def enumRev (l : List String) : List String := l.dedup.reverse

/-- Line 224, inner query `lookup[lookup['id'] == id['id']]['name'].tolist()`:
the names of all catalog rows whose id matches, in catalog row order. -/
def lookupNames (lookup : List CatEntry) (v : Int) : List String :=
  (lookup.filter (fun c => c.id == v)).map (fun c => c.name)

/-- Lines 225-229: if the dict has a non-empty `extra` id list, filter the
extras catalog down to the rows whose id occurs in that list (pandas
`isin`, hence catalog row order) and wrap each name in parentheses;
otherwise there are no suffixes. -/
def resolveExtras (extras_lookup : List CatEntry) (d : RefDict) : List String :=
  match d.extra with
  | some ex =>
    if ex ≠ [] then
      ((extras_lookup.filter (fun c => ex.contains c.id)).map (fun c => c.name)).map
        (fun n => "(" ++ n ++ ")")
    else []
  | none => []

/-- Lines 224-230 for a single truthy dict entry: read `id['id']` (KeyError
when the key is absent), deduplicate the matching catalog names through a
set enumeration `e`, take element `[0]` (IndexError when there is no
match), and append the joined parenthesised extras. -/
def resolveDict (e : List String → List String) (lookup extras_lookup : List CatEntry)
    (d : RefDict) : Except PyError String :=
  match d.id with
  | none => .error .keyError
  | some v =>
    match e (lookupNames lookup v) with
    | [] => .error .indexError
    | n :: _ => .ok (n ++ String.join (resolveExtras extras_lookup d))

/-- Per-element view of the loop body of `id_to_name`, used to state the
order-preservation property.  On a `None` element it reports the error an
attribute access on `None` would raise; `id_to_name` never calls it on
one. -/
def resolveEntry (e : List String → List String) (lookup extras_lookup : List CatEntry) :
    RefEntry → Except PyError String
  | .null => .error .attributeError
  | .dict d => resolveDict e lookup extras_lookup d

/-- Lines 220-231, `id_to_name`: walk the reference list in order, skip
falsy elements, resolve each truthy dict and collect the composed names.
The parameter `e` is the ambient set-enumeration behaviour (hash-seed
dependent) used by `list(set(...))`. -/
def id_to_name (e : List String → List String) (id_list : List RefEntry)
    (lookup extras_lookup : List CatEntry) : Except PyError (List String) :=
  match id_list with
  | [] => .ok []
  | entry :: rest =>
    if entryTruthy entry then
      match resolveEntry e lookup extras_lookup entry with
      | .error err => .error err
      | .ok s =>
        match id_to_name e rest lookup extras_lookup with
        | .error err => .error err
        | .ok names => .ok (s :: names)
    else id_to_name e rest lookup extras_lookup

/-- One order-count record `{type, total}` inside an option's `orders`
list. -/
structure OrderEntry where
  type : String
  total : Int
  deriving DecidableEq, Repr

/-- An option record of a profile group (keys read on lines 320-327). -/
structure UnitOption where
  points : Int
  swc : String
  skills : List RefEntry
  orders : List OrderEntry
  weapons : List RefEntry
  equip : List RefEntry
  deriving DecidableEq, Repr

/-- A profile record of a profile group (keys read on lines 329-331). -/
structure Profile where
  skills : List RefEntry
  arm : Int
  ava : Int
  bs : Int
  bts : Int
  cc : Int
  move : List Int
  ph : Int
  s : Int
  str : Int
  w : Int
  wip : Int
  equip : List RefEntry
  weapons : List RefEntry
  type : Int
  chars : List String
  deriving DecidableEq, Repr

/-- One element of a unit's `profileGroups` list. -/
structure ProfileGroup where
  options : List UnitOption
  profiles : List Profile
  deriving DecidableEq, Repr

/-- A unit record of the faction document. -/
structure ArmyUnit where
  name : String
  profileGroups : List ProfileGroup
  deriving DecidableEq, Repr

/-- Semantics of `DataFrame.explode` on one list-valued cell: each list
element becomes its own row, and an empty list produces a single row
holding NaN (modelled as `none`). -/
def explodeCell (l : List α) : List (Option α) :=
  match l with
  | [] => [none]
  | xs => xs.map some

/-- Column-wise application of a fallible per-row function, modelling a
whole-table pandas operation that raises on the first bad row: any failure
aborts the whole table. -/
def exceptMapM (f : α → Except PyError β) : List α → Except PyError (List β)
  | [] => .ok []
  | x :: xs =>
    match f x with
    | .error err => .error err
    | .ok y =>
      match exceptMapM f xs with
      | .error err => .error err
      | .ok ys => .ok (y :: ys)

/-- A fully exploded, still unresolved row of the army table, as it stands
after line 331: the unit-level columns, the per-option columns extracted on
lines 320-327, the per-profile columns extracted on lines 329-331, and the
exploded cell columns `profileGroups`, `profileGroupOptions`,
`profileGroupProfiles` that remain in the frame until the drop on
line 341. -/
structure FlatRow where
  name : String
  points : Int
  swc : String
  option_skills : List RefEntry
  orders : List OrderEntry
  option_weapons : List RefEntry
  option_equipment : List RefEntry
  skills : List RefEntry
  arm : Int
  ava : Int
  bs : Int
  bts : Int
  cc : Int
  move : List Int
  ph : Int
  s : Int
  str : Int
  w : Int
  wip : Int
  equip : List RefEntry
  weapons : List RefEntry
  type : Int
  chars : List String
  profileGroups : ProfileGroup
  profileGroupOptions : UnitOption
  profileGroupProfiles : Profile
  deriving DecidableEq, Repr

/-- Construction of one flat row from its originating unit, group, option
and profile: every raw column is the straight projection the corresponding
`add_column_from_dict_value` call extracts. -/
def mkFlatRow (u : ArmyUnit) (g : ProfileGroup) (o : UnitOption) (p : Profile) : FlatRow :=
  { name := u.name
    points := o.points
    swc := o.swc
    option_skills := o.skills
    orders := o.orders
    option_weapons := o.weapons
    option_equipment := o.equip
    skills := p.skills
    arm := p.arm
    ava := p.ava
    bs := p.bs
    bts := p.bts
    cc := p.cc
    move := p.move
    ph := p.ph
    s := p.s
    str := p.str
    w := p.w
    wip := p.wip
    equip := p.equip
    weapons := p.weapons
    type := p.type
    chars := p.chars
    profileGroups := g
    profileGroupOptions := o
    profileGroupProfiles := p }

/-- Line 312: explode the `profileGroups` column; every other column of the
unit row is duplicated onto each produced row. -/
def explodeGroups (units : List ArmyUnit) : List (ArmyUnit × Option ProfileGroup) :=
  units.flatMap (fun u => (explodeCell u.profileGroups).map (fun g => (u, g)))

/-- Lines 314-315: extract the `options` and `profiles` keys from the
exploded `profileGroups` cell.  On a NaN cell (empty source list) the
attribute access `d.get` raises. -/
def extractGroupCols : ArmyUnit × Option ProfileGroup → Except PyError (ArmyUnit × ProfileGroup)
  | (_, none) => .error .attributeError
  | (u, some g) => .ok (u, g)

/-- Line 318: explode the `profileGroupOptions` column. -/
def explodeOptions (rows : List (ArmyUnit × ProfileGroup)) :
    List (ArmyUnit × ProfileGroup × Option UnitOption) :=
  rows.flatMap (fun r => (explodeCell r.2.options).map (fun o => (r.1, r.2, o)))

/-- Lines 320-327: extract `points`, `swc`, option skills, `orders`, option
weapons and option equipment from the exploded option cell; raises on a
NaN cell. -/
def extractOptionCols : ArmyUnit × ProfileGroup × Option UnitOption →
    Except PyError (ArmyUnit × ProfileGroup × UnitOption)
  | (_, _, none) => .error .attributeError
  | (u, g, some o) => .ok (u, g, o)

/-- Line 328: explode the `profileGroupProfiles` column. -/
def explodeProfiles (rows : List (ArmyUnit × ProfileGroup × UnitOption)) :
    List (ArmyUnit × ProfileGroup × UnitOption × Option Profile) :=
  rows.flatMap (fun r => (explodeCell r.2.1.profiles).map (fun p => (r.1, r.2.1, r.2.2, p)))

/-- Lines 329-331: extract the profile attribute columns from the exploded
profile cell; raises on a NaN cell. -/
def extractProfileCols : ArmyUnit × ProfileGroup × UnitOption × Option Profile →
    Except PyError FlatRow
  | (_, _, _, none) => .error .attributeError
  | (u, g, o, some p) => .ok (mkFlatRow u g o p)

/-- Lines 312-331, the ProfileFlattener: the cascading explode/extract
pipeline from the raw unit list to the flat unresolved rows. -/
def flattenUnits (units : List ArmyUnit) : Except PyError (List FlatRow) :=
  match exceptMapM extractGroupCols (explodeGroups units) with
  | .error err => .error err
  | .ok rows2 =>
    match exceptMapM extractOptionCols (explodeOptions rows2) with
    | .error err => .error err
    | .ok rows4 =>
      exceptMapM extractProfileCols (explodeProfiles rows4)

/-- Lines 267-275: the fixed category-type enumeration used by
`convert_type_ids`. -/
def type_id_to_name (n : Int) : Except PyError String :=
  if n = 1 then .ok "LI"
  else if n = 2 then .ok "MI"
  else if n = 3 then .ok "HI"
  else if n = 4 then .ok "TAG"
  else if n = 5 then .ok "REM"
  else if n = 6 then .ok "SK"
  else if n = 7 then .ok "WB"
  else .error .keyError

/-- Lines 284-287, `get_orders_of_type`: sum the `total` fields of exactly
the order entries whose `type` string equals `order_type` (case-sensitive
string equality). -/
def get_orders_of_type (orders_list : List OrderEntry) (order_type : String) : Int :=
  ((orders_list.filter (fun o => o.type == order_type)).map (fun o => o.total)).sum

/-- The four order-count columns produced by `add_order_columns`. -/
structure OrderCounts where
  regular : Int
  irregular : Int
  impetuous : Int
  lieutenant : Int
  deriving DecidableEq, Repr

/-- Lines 289-297, `add_order_columns` on one row's `orders` cell: the four
columns sum the fixed category strings `REGULAR`, `IRREGULAR`, `IMPETUOUS`,
`LIEUTENANT`. -/
def add_order_columns (orders : List OrderEntry) : OrderCounts :=
  { regular := get_orders_of_type orders "REGULAR"
    irregular := get_orders_of_type orders "IRREGULAR"
    impetuous := get_orders_of_type orders "IMPETUOUS"
    lieutenant := get_orders_of_type orders "LIEUTENANT" }

/-- A resolved row of the army table, as it stands after line 338: name
lists replaced by display-name lists, the category label in `type`, and the
four order-count columns present.  `swc` is still the raw string; its float
coercion (lines 345-346) is modelled separately by `coerce_swc`. -/
structure FinalRow where
  name : String
  type : String
  move : List Int
  cc : Int
  bs : Int
  ph : Int
  wip : Int
  arm : Int
  bts : Int
  w : Int
  str : Int
  s : Int
  ava : Int
  skills : List String
  equipment : List String
  weapons : List String
  swc : String
  points : Int
  regular_orders : Int
  irregular_orders : Int
  impetuous_orders : Int
  lieutenant_orders : Int
  deriving DecidableEq, Repr

/-- Lines 333-338 applied to one row: `convert_skill_ids`,
`convert_weapon_ids` and `convert_equipment_ids` each rename the raw
id-list columns and set the final column to the resolution of the
profile's base list concatenated with the resolution of the option's
granted list; `convert_type_ids` maps the category code and
`add_order_columns` computes the four order sums.  The source applies each
conversion column-wise over the whole table; fusing them per row produces
the same table on success and an error exactly when the column-wise run
errors (only which of several bad cells is reported first can differ). -/
def convertRow (e : List String → List String)
    (weapons_df skills_df equipment_df extras_df : List CatEntry)
    (r : FlatRow) : Except PyError FinalRow :=
  match id_to_name e r.skills skills_df extras_df with
  | .error err => .error err
  | .ok skills =>
  match id_to_name e r.option_skills skills_df extras_df with
  | .error err => .error err
  | .ok option_skills =>
  match id_to_name e r.weapons weapons_df extras_df with
  | .error err => .error err
  | .ok weapons =>
  match id_to_name e r.option_weapons weapons_df extras_df with
  | .error err => .error err
  | .ok option_weapons =>
  match id_to_name e r.equip equipment_df extras_df with
  | .error err => .error err
  | .ok equipment =>
  match id_to_name e r.option_equipment equipment_df extras_df with
  | .error err => .error err
  | .ok option_equipment =>
  match type_id_to_name r.type with
  | .error err => .error err
  | .ok tlabel =>
    .ok { name := r.name
          type := tlabel
          move := r.move
          cc := r.cc
          bs := r.bs
          ph := r.ph
          wip := r.wip
          arm := r.arm
          bts := r.bts
          w := r.w
          str := r.str
          s := r.s
          ava := r.ava
          skills := skills ++ option_skills
          equipment := equipment ++ option_equipment
          weapons := weapons ++ option_weapons
          swc := r.swc
          points := r.points
          regular_orders := (add_order_columns r.orders).regular
          irregular_orders := (add_order_columns r.orders).irregular
          impetuous_orders := (add_order_columns r.orders).impetuous
          lieutenant_orders := (add_order_columns r.orders).lieutenant }

/-- Lines 312-338 of `load_army_data_to_dataframes`: flatten the unit list
and run the id/type/order conversions.  The later steps (column drop,
empty-name filtering, numeric coercion, column selection, lines 341-356)
do not alter these columns other than removing rows and coercing `swc`. -/
def load_army_rows (e : List String → List String)
    (weapons_df skills_df equipment_df extras_df : List CatEntry)
    (units : List ArmyUnit) : Except PyError (List FinalRow) :=
  match flattenUnits units with
  | .error err => .error err
  | .ok rows => exceptMapM (convertRow e weapons_df skills_df equipment_df extras_df) rows

/-- Value of a digit string as a natural number. -/
def digitsVal (cs : List Char) : Nat :=
  cs.foldl (fun acc c => 10 * acc + (c.toNat - 48)) 0

/-- Models the library float coercion (pandas `astype('float')` /
Python `float()`) on a plain decimal literal, mapped to its exact rational
value: an optional sign, then digits with at most one decimal point and at
least one digit; anything else raises a coercion error. -/
def pyFloat (str : String) : Except PyError Rat :=
  let body := fun (cs : List Char) =>
    let intPart := cs.takeWhile Char.isDigit
    let rest := cs.dropWhile Char.isDigit
    match rest with
    | [] =>
      if intPart = [] then Except.error PyError.valueError
      else Except.ok ((digitsVal intPart : Int) : Rat)
    | '.' :: frac =>
      if frac.all Char.isDigit && (intPart ≠ [] || frac ≠ []) then
        Except.ok (((digitsVal intPart : Int) : Rat) +
          ((digitsVal frac : Int) : Rat) / ((10 : Rat) ^ frac.length))
      else Except.error PyError.valueError
    | _ => Except.error PyError.valueError
  match str.data with
  | '-' :: cs => (body cs).map (fun q => -q)
  | '+' :: cs => body cs
  | cs => body cs

/-- Lines 345-346: substitute the literal `-` placeholder in the `swc`
column by `0`, then coerce to float. -/
def coerce_swc (str : String) : Except PyError Rat :=
  pyFloat (if str = "-" then "0" else str)

/-- A successful column-wise pass produces one output row per input row. -/
theorem exceptMapM_ok_length {α β : Type} (f : α → Except PyError β)
    (l : List α) (l' : List β) (h : exceptMapM f l = .ok l') :
    l'.length = l.length := by
  induction l generalizing l' with
  | nil =>
    simp only [exceptMapM] at h
    cases h
    rfl
  | cons x xs ih =>
    rw [exceptMapM] at h
    cases hx : f x with
    | error err => rw [hx] at h; cases h
    | ok y =>
      rw [hx] at h
      cases hxs : exceptMapM f xs with
      | error err => rw [hxs] at h; cases h
      | ok ys =>
        rw [hxs] at h
        cases h
        simp [ih ys hxs]

/-- Every output row of a successful column-wise pass comes from some input
row. -/
theorem exceptMapM_ok_mem {α β : Type} (f : α → Except PyError β)
    (l : List α) (l' : List β) (h : exceptMapM f l = .ok l') :
    ∀ y ∈ l', ∃ x ∈ l, f x = .ok y := by
  induction l generalizing l' with
  | nil =>
    simp only [exceptMapM] at h
    cases h
    intro y hy
    cases hy
  | cons x xs ih =>
    rw [exceptMapM] at h
    cases hx : f x with
    | error err => rw [hx] at h; cases h
    | ok y =>
      rw [hx] at h
      cases hxs : exceptMapM f xs with
      | error err => rw [hxs] at h; cases h
      | ok ys =>
        rw [hxs] at h
        cases h
        intro z hz
        rcases List.mem_cons.mp hz with hz | hz
        · exact ⟨x, List.mem_cons_self x xs, hz ▸ hx⟩
        · rcases ih ys hxs z hz with ⟨w, hw, hfw⟩
          exact ⟨w, List.mem_cons_of_mem x hw, hfw⟩

/-- A column-wise pass over a mapped list succeeds pointwise. -/
theorem exceptMapM_ok_of_map {α β γ : Type} (f : β → Except PyError γ)
    (φ : α → β) (ψ : α → γ) (l : List α)
    (h : ∀ x ∈ l, f (φ x) = .ok (ψ x)) :
    exceptMapM f (l.map φ) = .ok (l.map ψ) := by
  induction l with
  | nil => rfl
  | cons x xs ih =>
    simp only [List.map_cons, exceptMapM]
    rw [h x (List.mem_cons_self x xs), ih (fun z hz => h z (List.mem_cons_of_mem x hz))]

/-- Exploding a non-empty list-valued cell wraps each element in `some`. -/
theorem explodeCell_ne_nil {α : Type} (l : List α) (h : l ≠ []) :
    explodeCell l = l.map some := by
  cases l with
  | nil => exact absurd rfl h
  | cons x xs => rfl

/-- A non-NaN exploded cell value is an element of the original list. -/
theorem mem_of_some_mem_explodeCell {α : Type} (l : List α) (a : α)
    (h : some a ∈ explodeCell l) : a ∈ l := by
  cases l with
  | nil => simp [explodeCell] at h
  | cons x xs =>
    simp only [explodeCell, List.mem_map] at h
    rcases h with ⟨b, hb, hba⟩
    cases hba
    exact hb

/-- Proof-layer view of the rows after the group explode: one
(unit, group) pair per group, in order. -/
def groupRows (units : List ArmyUnit) : List (ArmyUnit × ProfileGroup) :=
  units.flatMap (fun u => u.profileGroups.map (fun g => (u, g)))

/-- Proof-layer view of the rows after the option explode. -/
def optionRows (rows : List (ArmyUnit × ProfileGroup)) :
    List (ArmyUnit × ProfileGroup × UnitOption) :=
  rows.flatMap (fun r => r.2.options.map (fun o => (r.1, r.2, o)))

/-- Proof-layer view of the rows after the profile explode. -/
def profileRows (rows : List (ArmyUnit × ProfileGroup × UnitOption)) :
    List (ArmyUnit × ProfileGroup × UnitOption × Profile) :=
  rows.flatMap (fun r => r.2.1.profiles.map (fun p => (r.1, r.2.1, r.2.2, p)))

/-- When every unit has at least one profile group, the group explode
produces exactly the (unit, group) pairs wrapped in `some`. -/
theorem explodeGroups_eq (units : List ArmyUnit)
    (h : ∀ u ∈ units, u.profileGroups ≠ []) :
    explodeGroups units = (groupRows units).map (fun q => (q.1, some q.2)) := by
  unfold explodeGroups groupRows
  rw [List.map_flatMap]
  apply List.flatMap_congr
  intro u hu
  rw [explodeCell_ne_nil _ (h u hu), List.map_map, List.map_map]
  rfl

/-- When every row's group has at least one option, the option explode
produces exactly the (unit, group, option) triples wrapped in `some`. -/
theorem explodeOptions_eq (rows : List (ArmyUnit × ProfileGroup))
    (h : ∀ r ∈ rows, r.2.options ≠ []) :
    explodeOptions rows = (optionRows rows).map (fun t => (t.1, t.2.1, some t.2.2)) := by
  unfold explodeOptions optionRows
  rw [List.map_flatMap]
  apply List.flatMap_congr
  intro r hr
  rw [explodeCell_ne_nil _ (h r hr), List.map_map, List.map_map]
  rfl

/-- When every row's group has at least one profile, the profile explode
produces exactly the (unit, group, option, profile) quadruples wrapped in
`some`. -/
theorem explodeProfiles_eq (rows : List (ArmyUnit × ProfileGroup × UnitOption))
    (h : ∀ r ∈ rows, r.2.1.profiles ≠ []) :
    explodeProfiles rows =
      (profileRows rows).map (fun q => (q.1, q.2.1, q.2.2.1, some q.2.2.2)) := by
  unfold explodeProfiles profileRows
  rw [List.map_flatMap]
  apply List.flatMap_congr
  intro r hr
  rw [explodeCell_ne_nil _ (h r hr), List.map_map, List.map_map]
  rfl

/-- On a unit list where every group axis is non-empty, the whole flatten
pipeline succeeds and produces exactly one row per
(unit, group, option, profile) combination, options and profiles paired
within their originating group only. -/
theorem flattenUnits_ok (units : List ArmyUnit)
    (h : ∀ u ∈ units, u.profileGroups ≠ [] ∧
      ∀ g ∈ u.profileGroups, g.options ≠ [] ∧ g.profiles ≠ []) :
    flattenUnits units =
      .ok ((profileRows (optionRows (groupRows units))).map
        (fun q => mkFlatRow q.1 q.2.1 q.2.2.1 q.2.2.2)) := by
  have h1 : ∀ u ∈ units, u.profileGroups ≠ [] := fun u hu => (h u hu).1
  have hg : ∀ q ∈ groupRows units, q.2.options ≠ [] ∧ q.2.profiles ≠ [] := by
    intro q hq
    unfold groupRows at hq
    rcases List.mem_flatMap.mp hq with ⟨u, hu, hq2⟩
    rcases List.mem_map.mp hq2 with ⟨g, hgmem, hgq⟩
    cases hgq
    exact (h u hu).2 g hgmem
  have ho : ∀ t ∈ optionRows (groupRows units), t.2.1.profiles ≠ [] := by
    intro t ht
    unfold optionRows at ht
    rcases List.mem_flatMap.mp ht with ⟨r, hr, ht2⟩
    rcases List.mem_map.mp ht2 with ⟨o, homem, hot⟩
    cases hot
    exact (hg r hr).2
  have e1 : exceptMapM extractGroupCols ((groupRows units).map (fun q => (q.1, some q.2))) =
      .ok ((groupRows units).map id) :=
    exceptMapM_ok_of_map extractGroupCols
      (fun (q : ArmyUnit × ProfileGroup) => (q.1, some q.2)) id
      (groupRows units) (fun q _ => rfl)
  have e2 : exceptMapM extractOptionCols
      ((optionRows (groupRows units)).map (fun t => (t.1, t.2.1, some t.2.2))) =
      .ok ((optionRows (groupRows units)).map id) :=
    exceptMapM_ok_of_map extractOptionCols
      (fun (t : ArmyUnit × ProfileGroup × UnitOption) => (t.1, t.2.1, some t.2.2)) id
      (optionRows (groupRows units)) (fun t _ => rfl)
  have e3 : exceptMapM extractProfileCols
      ((profileRows (optionRows (groupRows units))).map
        (fun q => (q.1, q.2.1, q.2.2.1, some q.2.2.2))) =
      .ok ((profileRows (optionRows (groupRows units))).map
        (fun q => mkFlatRow q.1 q.2.1 q.2.2.1 q.2.2.2)) :=
    exceptMapM_ok_of_map extractProfileCols
      (fun (q : ArmyUnit × ProfileGroup × UnitOption × Profile) =>
        (q.1, q.2.1, q.2.2.1, some q.2.2.2))
      (fun q => mkFlatRow q.1 q.2.1 q.2.2.1 q.2.2.2)
      (profileRows (optionRows (groupRows units))) (fun q _ => rfl)
  unfold flattenUnits
  rw [explodeGroups_eq units h1, e1, List.map_id]
  dsimp only
  rw [explodeOptions_eq _ (fun r hr => (hg r hr).1), e2, List.map_id]
  dsimp only
  rw [explodeProfiles_eq _ ho, e3]

/-- The composed explode stages produce the group-scoped nested cross
product: options and profiles are paired only within their own group. -/
theorem composed_rows_eq (units : List ArmyUnit) :
    profileRows (optionRows (groupRows units)) =
      units.flatMap (fun u => u.profileGroups.flatMap (fun g =>
        g.options.flatMap (fun o => g.profiles.map (fun p => (u, g, o, p))))) := by
  unfold profileRows optionRows groupRows
  simp only [List.flatMap_assoc, List.flatMap_map, List.map_map]

/-- Length of the nested cross product: the sum over units and groups of
(number of options) times (number of profiles). -/
theorem nested_rows_length (units : List ArmyUnit) :
    (units.flatMap (fun u => u.profileGroups.flatMap (fun g =>
        g.options.flatMap (fun o => g.profiles.map (fun p => (u, g, o, p)))))).length =
      (units.map (fun u =>
        (u.profileGroups.map (fun g => g.options.length * g.profiles.length)).sum)).sum := by
  simp only [List.length_flatMap, List.map_map, Function.comp_def, List.length_map]
  congr 1
  apply List.map_congr_left
  intro u _
  congr 1
  apply List.map_congr_left
  intro g _
  rw [List.map_const', List.sum_replicate, smul_eq_mul]

/-- Every row of a successful flatten run originates from one
(unit, group, option, profile) chain of memberships: it is built from an
option and a profile of the same group. -/
theorem flattenUnits_ok_mem (units : List ArmyUnit) (rows : List FlatRow)
    (h : flattenUnits units = .ok rows) :
    ∀ r ∈ rows, ∃ u g o p, u ∈ units ∧ g ∈ u.profileGroups ∧ o ∈ g.options ∧
      p ∈ g.profiles ∧ r = mkFlatRow u g o p := by
  unfold flattenUnits at h
  cases h2 : exceptMapM extractGroupCols (explodeGroups units) with
  | error err => rw [h2] at h; cases h
  | ok rows2 =>
    rw [h2] at h
    dsimp only at h
    cases h4 : exceptMapM extractOptionCols (explodeOptions rows2) with
    | error err => rw [h4] at h; cases h
    | ok rows4 =>
      rw [h4] at h
      dsimp only at h
      intro r hr
      rcases exceptMapM_ok_mem _ _ _ h r hr with ⟨x, hx, hfx⟩
      obtain ⟨u, g, o, p?⟩ := x
      cases p? with
      | none => exact absurd hfx (by simp [extractProfileCols])
      | some p =>
        simp only [extractProfileCols, Except.ok.injEq] at hfx
        subst hfx
        unfold explodeProfiles at hx
        rcases List.mem_flatMap.mp hx with ⟨r4, hr4, hx2⟩
        rcases List.mem_map.mp hx2 with ⟨pc, hpc, hpeq⟩
        injection hpeq with hu4 hrest1
        injection hrest1 with hg4 hrest2
        injection hrest2 with ho4 hp4
        subst hu4
        subst hg4
        subst ho4
        subst hp4
        have hp : p ∈ r4.2.1.profiles := mem_of_some_mem_explodeCell _ _ hpc
        rcases exceptMapM_ok_mem _ _ _ h4 r4 hr4 with ⟨x3, hx3, hfx3⟩
        obtain ⟨u3, g3, o?⟩ := x3
        cases o? with
        | none => exact absurd hfx3 (by simp [extractOptionCols])
        | some o3 =>
          simp only [extractOptionCols, Except.ok.injEq] at hfx3
          subst hfx3
          unfold explodeOptions at hx3
          rcases List.mem_flatMap.mp hx3 with ⟨r2, hr2, hx32⟩
          rcases List.mem_map.mp hx32 with ⟨oc, hoc, hoeq⟩
          injection hoeq with hu3 hrest3
          injection hrest3 with hg3 ho3
          subst hu3
          subst hg3
          subst ho3
          have ho : o3 ∈ r2.2.options := mem_of_some_mem_explodeCell _ _ hoc
          rcases exceptMapM_ok_mem _ _ _ h2 r2 hr2 with ⟨x1, hx1, hfx1⟩
          obtain ⟨u1, g?⟩ := x1
          cases g? with
          | none => exact absurd hfx1 (by simp [extractGroupCols])
          | some g1 =>
            simp only [extractGroupCols, Except.ok.injEq] at hfx1
            subst hfx1
            unfold explodeGroups at hx1
            rcases List.mem_flatMap.mp hx1 with ⟨u0, hu0, hx12⟩
            rcases List.mem_map.mp hx12 with ⟨gc, hgc, hgeq⟩
            injection hgeq with hu1 hg1
            subst hu1
            subst hg1
            have hgm : g1 ∈ u0.profileGroups := mem_of_some_mem_explodeCell _ _ hgc
            exact ⟨u0, g1, o3, p, hu0, hgm, ho, hp, rfl⟩

/-- Sample skill catalog used by the concrete witnesses (mirrors the
end-to-end scenario of the specification). -/
def sampleSkills : List CatEntry := [⟨5, "Camouflage"⟩]

/-- Sample weapon catalog used by the concrete witnesses. -/
def sampleWeapons : List CatEntry := [⟨9, "Rifle"⟩]

/-- Sample equipment catalog used by the concrete witnesses. -/
def sampleEquipment : List CatEntry := []

/-- Sample extras catalog used by the concrete witnesses. -/
def sampleExtras : List CatEntry := [⟨1, "AP"⟩]

/-- Sample profile used by the concrete witnesses. -/
def sampleProfile : Profile :=
  { skills := [.dict ⟨some 5, none⟩]
    arm := 1
    ava := 1
    bs := 10
    bts := 0
    cc := 15
    move := [4, 2]
    ph := 10
    s := 1
    str := 1
    w := 1
    wip := 12
    equip := []
    weapons := [.dict ⟨some 9, some [1]⟩]
    type := 2
    chars := [] }

/-- Sample option used by the concrete witnesses. -/
def sampleOption : UnitOption :=
  { points := 10
    swc := "0"
    skills := []
    orders := [⟨"REGULAR", 1⟩]
    weapons := []
    equip := [] }

/-- Sample unit with one profile group, one option and one profile. -/
def sampleUnit : ArmyUnit :=
  { name := "Zhanshi", profileGroups := [⟨[sampleOption], [sampleProfile]⟩] }

/-- Unit whose single profile group has an empty options list. -/
def emptyOptionsUnit : ArmyUnit :=
  { name := "Ghost", profileGroups := [⟨[], [sampleProfile]⟩] }

/-- C1 (amended): on a unit list in which every unit has at least one
profile group and every group has at least one option and at least one
profile, flattening succeeds and yields exactly
O₁·P₁ + O₂·P₂ + … + O_G·P_G candidate rows per unit (before empty-name
filtering), and every row pairs an option with a profile of the same
originating group — never across groups.  The zero-options / zero-profiles
edge case of the original claim fails on the code and is settled by the
accompanying counterexample. -/
theorem c1_group_scoped_row_count (units : List ArmyUnit)
    (h : ∀ u ∈ units, u.profileGroups ≠ [] ∧
      ∀ g ∈ u.profileGroups, g.options ≠ [] ∧ g.profiles ≠ []) :
    ∃ rows, flattenUnits units = .ok rows ∧
      rows.length = (units.map (fun u =>
        (u.profileGroups.map (fun g => g.options.length * g.profiles.length)).sum)).sum ∧
      ∀ r ∈ rows, ∃ u ∈ units, ∃ g ∈ u.profileGroups,
        r.profileGroupOptions ∈ g.options ∧ r.profileGroupProfiles ∈ g.profiles := by
  refine ⟨_, flattenUnits_ok units h, ?_, ?_⟩
  · rw [List.length_map, composed_rows_eq, nested_rows_length]
  · intro r hr
    rcases flattenUnits_ok_mem units _ (flattenUnits_ok units h) r hr with
      ⟨u, g, o, p, hu, hg, ho, hp, hr'⟩
    subst hr'
    exact ⟨u, hu, g, hg, ho, hp⟩

/-- Witness for C1 at the sample unit: one group with one option and one
profile yields exactly one row, drawn from that group. -/
theorem c1_group_scoped_row_count_witness :
    ∃ rows, flattenUnits [sampleUnit] = .ok rows ∧
      rows.length = ([sampleUnit].map (fun u =>
        (u.profileGroups.map (fun g => g.options.length * g.profiles.length)).sum)).sum ∧
      ∀ r ∈ rows, ∃ u ∈ [sampleUnit], ∃ g ∈ u.profileGroups,
        r.profileGroupOptions ∈ g.options ∧ r.profileGroupProfiles ∈ g.profiles :=
  c1_group_scoped_row_count [sampleUnit] (by decide)

/-- C1 counterexample: a group with zero options does not contribute zero
rows silently; the explode produces a NaN placeholder row and the
subsequent per-option field extraction raises, so the whole flatten fails
with an AttributeError. -/
theorem c1_empty_options_error :
    flattenUnits [emptyOptionsUnit] = .error .attributeError := rfl

/-- C2: every row of a successful load has each of its skills, weapons and
equipment name-list columns equal to the resolution of the owning
profile's base reference list concatenated with the resolution of the
selected option's granted reference list, in that (profile, option)
order. -/
theorem c2_columns_are_profile_then_option (e : List String → List String)
    (weapons_df skills_df equipment_df extras_df : List CatEntry)
    (units : List ArmyUnit) (rows : List FinalRow)
    (h : load_army_rows e weapons_df skills_df equipment_df extras_df units = .ok rows) :
    ∀ r ∈ rows, ∃ u g o p, u ∈ units ∧ g ∈ u.profileGroups ∧ o ∈ g.options ∧ p ∈ g.profiles ∧
      (∃ a b, id_to_name e p.skills skills_df extras_df = .ok a ∧
        id_to_name e o.skills skills_df extras_df = .ok b ∧ r.skills = a ++ b) ∧
      (∃ a b, id_to_name e p.weapons weapons_df extras_df = .ok a ∧
        id_to_name e o.weapons weapons_df extras_df = .ok b ∧ r.weapons = a ++ b) ∧
      (∃ a b, id_to_name e p.equip equipment_df extras_df = .ok a ∧
        id_to_name e o.equip equipment_df extras_df = .ok b ∧ r.equipment = a ++ b) := by
  intro r hr
  unfold load_army_rows at h
  cases hf : flattenUnits units with
  | error err => rw [hf] at h; cases h
  | ok frows =>
    rw [hf] at h
    rcases exceptMapM_ok_mem _ _ _ h r hr with ⟨fr, hfr, hconv⟩
    rcases flattenUnits_ok_mem units frows hf fr hfr with ⟨u, g, o, p, hu, hg, ho, hp, hfr'⟩
    subst hfr'
    rw [convertRow] at hconv
    cases h1 : id_to_name e (mkFlatRow u g o p).skills skills_df extras_df with
    | error err => rw [h1] at hconv; cases hconv
    | ok skills =>
    rw [h1] at hconv
    cases h2 : id_to_name e (mkFlatRow u g o p).option_skills skills_df extras_df with
    | error err => rw [h2] at hconv; cases hconv
    | ok option_skills =>
    rw [h2] at hconv
    cases h3 : id_to_name e (mkFlatRow u g o p).weapons weapons_df extras_df with
    | error err => rw [h3] at hconv; cases hconv
    | ok weapons =>
    rw [h3] at hconv
    cases h4 : id_to_name e (mkFlatRow u g o p).option_weapons weapons_df extras_df with
    | error err => rw [h4] at hconv; cases hconv
    | ok option_weapons =>
    rw [h4] at hconv
    cases h5 : id_to_name e (mkFlatRow u g o p).equip equipment_df extras_df with
    | error err => rw [h5] at hconv; cases hconv
    | ok equipment =>
    rw [h5] at hconv
    cases h6 : id_to_name e (mkFlatRow u g o p).option_equipment equipment_df extras_df with
    | error err => rw [h6] at hconv; cases hconv
    | ok option_equipment =>
    rw [h6] at hconv
    cases h7 : type_id_to_name (mkFlatRow u g o p).type with
    | error err => rw [h7] at hconv; cases hconv
    | ok tlabel =>
    rw [h7] at hconv
    simp only [Except.ok.injEq] at hconv
    subst hconv
    exact ⟨u, g, o, p, hu, hg, ho, hp,
      ⟨skills, option_skills, h1, h2, rfl⟩,
      ⟨weapons, option_weapons, h3, h4, rfl⟩,
      ⟨equipment, option_equipment, h5, h6, rfl⟩⟩

/-- The single final row the sample army produces (it matches the
end-to-end scenario of the specification: type MI, Camouflage,
Rifle(AP)). -/
def sampleFinalRow : FinalRow :=
  { name := "Zhanshi"
    type := "MI"
    move := [4, 2]
    cc := 15
    bs := 10
    ph := 10
    wip := 12
    arm := 1
    bts := 0
    w := 1
    str := 1
    s := 1
    ava := 1
    skills := ["Camouflage"]
    equipment := []
    weapons := ["Rifle(AP)"]
    swc := "0"
    points := 10
    regular_orders := 1
    irregular_orders := 0
    impetuous_orders := 0
    lieutenant_orders := 0 }

/-- Witness for C2 at the sample army and its single produced row. -/
theorem c2_columns_witness :
    ∃ u g o p, u ∈ [sampleUnit] ∧ g ∈ u.profileGroups ∧ o ∈ g.options ∧ p ∈ g.profiles ∧
      (∃ a b, id_to_name enumDedup p.skills sampleSkills sampleExtras = .ok a ∧
        id_to_name enumDedup o.skills sampleSkills sampleExtras = .ok b ∧
        sampleFinalRow.skills = a ++ b) ∧
      (∃ a b, id_to_name enumDedup p.weapons sampleWeapons sampleExtras = .ok a ∧
        id_to_name enumDedup o.weapons sampleWeapons sampleExtras = .ok b ∧
        sampleFinalRow.weapons = a ++ b) ∧
      (∃ a b, id_to_name enumDedup p.equip sampleEquipment sampleExtras = .ok a ∧
        id_to_name enumDedup o.equip sampleEquipment sampleExtras = .ok b ∧
        sampleFinalRow.equipment = a ++ b) :=
  c2_columns_are_profile_then_option enumDedup sampleWeapons sampleSkills sampleEquipment
    sampleExtras [sampleUnit] [sampleFinalRow] rfl sampleFinalRow (List.mem_singleton.mpr rfl)

/-- Predicate following the specification's words for C3: an entry whose
id is present and non-empty (Python-truthy, so a present id of 0 does not
count). -/
def specHasNonEmptyId : RefEntry → Bool
  | .null => false
  | .dict d =>
    match d.id with
    | some v => v != 0
    | none => false

/-- C3 (amended): `id_to_name` omits exactly the falsy elements (None or
an empty dict) and preserves input order: it equals the element-wise
resolution of the truthy elements, and on success emits exactly one name
per truthy element.  The original claim's skip test — the entry's id being
falsy or absent — fails on the code, which tests the entry itself; see the
accompanying counterexample. -/
theorem c3_skip_truthiness (e : List String → List String) (id_list : List RefEntry)
    (lookup extras_lookup : List CatEntry) :
    id_to_name e id_list lookup extras_lookup =
      exceptMapM (resolveEntry e lookup extras_lookup) (id_list.filter entryTruthy) ∧
    ∀ names, id_to_name e id_list lookup extras_lookup = .ok names →
      names.length = (id_list.filter entryTruthy).length := by
  have main : ∀ l : List RefEntry, id_to_name e l lookup extras_lookup =
      exceptMapM (resolveEntry e lookup extras_lookup) (l.filter entryTruthy) := by
    intro l
    induction l with
    | nil => rfl
    | cons entry rest ih =>
      rw [id_to_name, List.filter_cons]
      cases htr : entryTruthy entry with
      | false => simpa [htr] using ih
      | true =>
        simp only [htr, if_true]
        rw [exceptMapM, ih]
        cases resolveEntry e lookup extras_lookup entry with
        | error err => rfl
        | ok s =>
          cases exceptMapM (resolveEntry e lookup extras_lookup) (rest.filter entryTruthy) with
          | error err => rfl
          | ok names => rfl
  refine ⟨main id_list, fun names h => ?_⟩
  rw [main id_list] at h
  exact exceptMapM_ok_length _ _ _ h

/-- Witness for C3 at a concrete list with one falsy and one truthy
element: one name is emitted for the one truthy element. -/
theorem c3_skip_truthiness_witness :
    (["C"] : List String).length =
      (([RefEntry.null, .dict ⟨some 5, none⟩]).filter entryTruthy).length :=
  (c3_skip_truthiness enumDedup [.null, .dict ⟨some 5, none⟩] [⟨5, "C"⟩] []).2 ["C"] rfl

/-- C3 counterexample: an entry whose id key holds the falsy value 0 is
not an entry with a non-empty id, yet it is not skipped: with id 0 present
in the catalog the code emits a name for it, so the number of emitted
names (1) differs from the number of input entries with a non-empty id
(0). -/
theorem c3_falsy_id_not_skipped :
    id_to_name enumDedup [.dict ⟨some 0, none⟩] [⟨0, "X"⟩] [] = .ok ["X"] ∧
    ([RefEntry.dict ⟨some 0, none⟩]).countP specHasNonEmptyId = 0 :=
  ⟨rfl, rfl⟩

/-- First-occurrence order is an admissible set enumeration. -/
theorem setEnum_enumDedup : SetEnum enumDedup :=
  fun l => List.Perm.refl l.dedup

/-- Reversed first-occurrence order is an admissible set enumeration. -/
theorem setEnum_enumRev : SetEnum enumRev :=
  fun l => List.reverse_perm l.dedup

/-- An admissible set enumeration maps the empty list to the empty list. -/
theorem setEnum_nil (e : List String → List String) (hse : SetEnum e) : e [] = [] := by
  have h2 := hse []
  rw [List.dedup_nil] at h2
  exact List.perm_nil.mp h2

/-- C4 (amended): resolving a reference whose id is present but matches no
catalog entry fails by raising the out-of-range lookup error (IndexError,
from taking element 0 of the empty deduplicated match list); it does not
produce a silently empty name, but neither does it raise the named
IdResolutionFailure the specification calls for — see the accompanying
counterexample. -/
theorem c4_unmatched_id_index_error (e : List String → List String) (hse : SetEnum e)
    (lookup extras_lookup : List CatEntry) (v : Int) (ex : Option (List Int))
    (h : lookup.filter (fun c => c.id == v) = []) :
    id_to_name e [.dict ⟨some v, ex⟩] lookup extras_lookup = .error .indexError := by
  have hn : lookupNames lookup v = [] := by rw [lookupNames, h]; rfl
  have he : e (lookupNames lookup v) = [] := by
    rw [hn]
    exact setEnum_nil e hse
  simp [id_to_name, entryTruthy, resolveEntry, resolveDict, he]

/-- Witness for C4: id 99 is absent from the one-entry catalog, and the
resolution fails with the IndexError. -/
theorem c4_unmatched_id_index_error_witness :
    id_to_name enumDedup [.dict ⟨some 99, none⟩] [⟨5, "C"⟩] [] = .error .indexError :=
  c4_unmatched_id_index_error enumDedup setEnum_enumDedup [⟨5, "C"⟩] [] 99 none rfl

/-- C4 counterexample: at a concrete unmatched reference the resolution
error is the generic IndexError, which is not the explicit named
IdResolutionFailure the claim requires. -/
theorem c4_no_named_error :
    id_to_name enumDedup [.dict ⟨some 99, none⟩] [⟨5, "C"⟩] [] = .error .indexError ∧
    (Except.error PyError.indexError : Except PyError (List String)) ≠
      .error .idResolutionFailure :=
  ⟨rfl, fun h => PyError.noConfusion (Except.error.inj h)⟩

/-- C5 counterexample: with two distinct catalog names for the same id,
two admissible set-enumeration orders (each realizable under some hash
seed) resolve the same reference against the same catalogs to different
strings, so two runs need not produce the same output. -/
theorem c5_enum_order_dependent :
    SetEnum enumDedup ∧ SetEnum enumRev ∧
    id_to_name enumDedup [.dict ⟨some 1, none⟩] [⟨1, "A"⟩, ⟨1, "B"⟩] [] = .ok ["A"] ∧
    id_to_name enumRev [.dict ⟨some 1, none⟩] [⟨1, "A"⟩, ⟨1, "B"⟩] [] = .ok ["B"] ∧
    (Except.ok ["A"] : Except PyError (List String)) ≠ .ok ["B"] :=
  ⟨setEnum_enumDedup, setEnum_enumRev, rfl, rfl,
    fun h => absurd (Except.ok.inj h) (by decide)⟩

/-- C5 (amended): resolution deduplicates the matching names and picks
the first under the ambient set-enumeration order; whenever every truthy
reference in the list has at most one distinct matching name (in
particular when catalog ids are unique, or duplicate ids agree on the
name, as the vendor data does), the output is independent of that order,
so any two runs produce the same output.  With two or more distinct names
for one id the choice is enumeration-order dependent; see the
accompanying counterexample. -/
theorem c5_deterministic_when_names_unique (e1 e2 : List String → List String)
    (h1 : SetEnum e1) (h2 : SetEnum e2) (id_list : List RefEntry)
    (lookup extras_lookup : List CatEntry)
    (h : ∀ d v, RefEntry.dict d ∈ id_list → d.id = some v →
      (lookupNames lookup v).dedup.length ≤ 1) :
    id_to_name e1 id_list lookup extras_lookup =
      id_to_name e2 id_list lookup extras_lookup := by
  induction id_list with
  | nil => rfl
  | cons entry rest ih =>
    have hrest : ∀ d v, RefEntry.dict d ∈ rest → d.id = some v →
        (lookupNames lookup v).dedup.length ≤ 1 :=
      fun d v hd hv => h d v (List.mem_cons_of_mem _ hd) hv
    rw [id_to_name, id_to_name]
    cases htr : entryTruthy entry with
    | false => simp [htr, ih hrest]
    | true =>
      have hent : resolveEntry e1 lookup extras_lookup entry =
          resolveEntry e2 lookup extras_lookup entry := by
        cases entry with
        | null => rfl
        | dict d =>
          simp only [resolveEntry, resolveDict]
          cases hid : d.id with
          | none => rfl
          | some v =>
            dsimp only
            have hd := h d v (List.mem_cons_self _ _) hid
            have hperm1 := h1 (lookupNames lookup v)
            have hperm2 := h2 (lookupNames lookup v)
            cases hdl : (lookupNames lookup v).dedup with
            | nil =>
              rw [hdl] at hperm1 hperm2
              rw [List.perm_nil.mp hperm1, List.perm_nil.mp hperm2]
            | cons x xs =>
              cases xs with
              | nil =>
                rw [hdl] at hperm1 hperm2
                rw [List.perm_singleton.mp hperm1, List.perm_singleton.mp hperm2]
              | cons y ys =>
                rw [hdl] at hd
                simp at hd
      rw [hent, ih hrest]

/-- Witness for C5 at a catalog with a unique id: both enumeration orders
resolve the reference identically. -/
theorem c5_deterministic_witness :
    id_to_name enumDedup [.dict ⟨some 5, none⟩] [⟨5, "C"⟩] [] =
      id_to_name enumRev [.dict ⟨some 5, none⟩] [⟨5, "C"⟩] [] :=
  c5_deterministic_when_names_unique enumDedup enumRev setEnum_enumDedup setEnum_enumRev
    [.dict ⟨some 5, none⟩] [⟨5, "C"⟩] []
    (by
      intro d v hd hv
      have h' := List.mem_singleton.mp hd
      injection h' with hd'
      subst hd'
      injection hv with h5
      subst h5
      decide)

/-- C6: for a reference with a resolvable id, when it carries a non-empty
extra id list each of whose ids occurs in the extras catalog, the resolved
string is the base name followed by each matching extras-catalog name
wrapped as "(name)", appended in extras-catalog row order (the pandas
isin filter keeps catalog order, so the suffixes are not re-sorted to the
extra list's order); when the extra list is absent or empty the resolved
string is exactly the base name with no suffix. -/
theorem c6_extra_suffix_order (e : List String → List String)
    (lookup extras_lookup : List CatEntry) (v : Int) (b : String) (t : List String)
    (hb : e (lookupNames lookup v) = b :: t) :
    (∀ ex, ex ≠ [] → (∀ i ∈ ex, ∃ c ∈ extras_lookup, c.id = i) →
      id_to_name e [.dict ⟨some v, some ex⟩] lookup extras_lookup =
        .ok [b ++ String.join ((extras_lookup.filter (fun c => ex.contains c.id)).map
          (fun c => "(" ++ c.name ++ ")"))]) ∧
    id_to_name e [.dict ⟨some v, none⟩] lookup extras_lookup = .ok [b] ∧
    id_to_name e [.dict ⟨some v, some []⟩] lookup extras_lookup = .ok [b] := by
  refine ⟨?_, ?_, ?_⟩
  · intro ex hex _hall
    simp [id_to_name, entryTruthy, resolveEntry, resolveDict, hb, resolveExtras, hex]
    rfl
  · simp [id_to_name, entryTruthy, resolveEntry, resolveDict, hb, resolveExtras]
    rw [show String.join ([] : List String) = "" from rfl, String.append_empty]
  · simp [id_to_name, entryTruthy, resolveEntry, resolveDict, hb, resolveExtras]
    rw [show String.join ([] : List String) = "" from rfl, String.append_empty]

/-- Witness for C6: the extra list [2, 1] against the catalog rows
(1, A), (2, B) appends the suffixes in catalog order. -/
theorem c6_extra_suffix_order_witness :
    id_to_name enumDedup [.dict ⟨some 9, some [2, 1]⟩] [⟨9, "Rifle"⟩] [⟨1, "A"⟩, ⟨2, "B"⟩] =
      .ok ["Rifle" ++ String.join ((([⟨1, "A"⟩, ⟨2, "B"⟩] : List CatEntry).filter
        (fun c => ([2, 1] : List Int).contains c.id)).map (fun c => "(" ++ c.name ++ ")"))] :=
  (c6_extra_suffix_order enumDedup [⟨9, "Rifle"⟩] [⟨1, "A"⟩, ⟨2, "B"⟩] 9 "Rifle" [] rfl).1
    [2, 1] (by decide) (by decide)

/-- C7: the category-type mapping sends 1..7 to LI, MI, HI, TAG, REM, SK,
WB respectively, and any integer outside 1..7 raises the unknown-code
failure (the lookup in the fixed dict fails) instead of producing a
label. -/
theorem c7_type_code_mapping :
    type_id_to_name 1 = .ok "LI" ∧ type_id_to_name 2 = .ok "MI" ∧
    type_id_to_name 3 = .ok "HI" ∧ type_id_to_name 4 = .ok "TAG" ∧
    type_id_to_name 5 = .ok "REM" ∧ type_id_to_name 6 = .ok "SK" ∧
    type_id_to_name 7 = .ok "WB" ∧
    ∀ n : Int, (n < 1 ∨ 7 < n) → type_id_to_name n = .error .keyError := by
  refine ⟨rfl, rfl, rfl, rfl, rfl, rfl, rfl, ?_⟩
  intro n hn
  have h1 : n ≠ 1 := by omega
  have h2 : n ≠ 2 := by omega
  have h3 : n ≠ 3 := by omega
  have h4 : n ≠ 4 := by omega
  have h5 : n ≠ 5 := by omega
  have h6 : n ≠ 6 := by omega
  have h7 : n ≠ 7 := by omega
  simp [type_id_to_name, h1, h2, h3, h4, h5, h6, h7]

/-- Witness for C7 at the out-of-range code 8. -/
theorem c7_type_code_mapping_witness :
    type_id_to_name 8 = .error .keyError :=
  c7_type_code_mapping.2.2.2.2.2.2.2 8 (by omega)

/-- C8: each of the four order-count columns equals the sum of the total
fields of exactly the order entries whose type string equals the fixed
category string under case-sensitive exact comparison; appending an entry
of any other type changes nothing and raises no error; the concrete
example sums to Regular 3, Irregular 1, Impetuous 0, Lieutenant 0; and the
comparison is case-sensitive. -/
theorem c8_order_sums :
    (∀ orders : List OrderEntry,
      (add_order_columns orders).regular =
        ((orders.filter (fun o => o.type == "REGULAR")).map (fun o => o.total)).sum ∧
      (add_order_columns orders).irregular =
        ((orders.filter (fun o => o.type == "IRREGULAR")).map (fun o => o.total)).sum ∧
      (add_order_columns orders).impetuous =
        ((orders.filter (fun o => o.type == "IMPETUOUS")).map (fun o => o.total)).sum ∧
      (add_order_columns orders).lieutenant =
        ((orders.filter (fun o => o.type == "LIEUTENANT")).map (fun o => o.total)).sum) ∧
    (∀ (orders : List OrderEntry) (entry : OrderEntry),
      entry.type ∉ (["REGULAR", "IRREGULAR", "IMPETUOUS", "LIEUTENANT"] : List String) →
      add_order_columns (orders ++ [entry]) = add_order_columns orders) ∧
    add_order_columns [⟨"REGULAR", 2⟩, ⟨"IRREGULAR", 1⟩, ⟨"REGULAR", 1⟩] = ⟨3, 1, 0, 0⟩ ∧
    get_orders_of_type [⟨"regular", 5⟩] "REGULAR" = 0 := by
  refine ⟨fun orders => ⟨rfl, rfl, rfl, rfl⟩, ?_, rfl, rfl⟩
  intro orders entry hentry
  simp only [List.mem_cons, List.not_mem_nil, or_false, not_or] at hentry
  obtain ⟨e1, e2, e3, e4⟩ := hentry
  have hmk : ∀ t : String, entry.type ≠ t →
      get_orders_of_type (orders ++ [entry]) t = get_orders_of_type orders t := by
    intro t ht
    unfold get_orders_of_type
    rw [List.filter_append]
    have hf : (entry.type == t) = false := by simp [ht]
    simp [List.filter, hf]
  unfold add_order_columns
  rw [hmk _ e1, hmk _ e2, hmk _ e3, hmk _ e4]

/-- Witness for C8: appending an entry with the unrecognized type
TACTICAL leaves all four order counts unchanged. -/
theorem c8_order_sums_witness :
    add_order_columns ([⟨"REGULAR", 2⟩] ++ [⟨"TACTICAL", 7⟩]) =
      add_order_columns [⟨"REGULAR", 2⟩] :=
  c8_order_sums.2.1 [⟨"REGULAR", 2⟩] ⟨"TACTICAL", 7⟩ (by decide)

/-- C9: in the swc column the literal "-" is coerced to the float value 0;
any other literal goes through the plain float coercion unchanged, so a
numeric literal parses to its value (for instance "1.5" to 3/2) and a
non-numeric literal other than "-" fails the coercion. -/
theorem c9_swc_coercion :
    coerce_swc "-" = .ok 0 ∧
    (∀ lit : String, lit ≠ "-" → coerce_swc lit = pyFloat lit) ∧
    coerce_swc "1.5" = .ok (3 / 2) ∧
    coerce_swc "abc" = .error .valueError := by
  refine ⟨rfl, ?_, ?_, rfl⟩
  · intro lit h
    simp [coerce_swc, h]
  · have h : coerce_swc "1.5" =
        Except.ok (((digitsVal ['1'] : Int) : Rat) +
          ((digitsVal ['5'] : Int) : Rat) / (10 : Rat) ^ (['5'] : List Char).length) := rfl
    have d1 : digitsVal ['1'] = 1 := rfl
    have d5 : digitsVal ['5'] = 5 := rfl
    rw [h, d1, d5]
    norm_num

/-- Witness for C9: a literal other than "-" is passed to the float
coercion unchanged. -/
theorem c9_swc_coercion_witness :
    coerce_swc "0.5" = pyFloat "0.5" :=
  c9_swc_coercion.2.1 "0.5" (by decide)

/-- C10: an extra id with no match in the extras catalog is silently
skipped: resolution still succeeds and the appended suffixes are exactly
the parenthesised names of the extras-catalog rows whose id occurs in the
extra list — one per catalog row, so possibly fewer than the extra list's
length (unmatched extras), or more (duplicate catalog ids).  The two
concrete conjuncts show 3 extra ids yielding 1 suffix and 1 extra id
yielding 2 suffixes. -/
theorem c10_unmatched_extra_skipped (e : List String → List String)
    (lookup extras_lookup : List CatEntry) (v : Int) (b : String) (t : List String)
    (ex : List Int) (hb : e (lookupNames lookup v) = b :: t) (hex : ex ≠ []) :
    id_to_name e [.dict ⟨some v, some ex⟩] lookup extras_lookup =
      .ok [b ++ String.join ((extras_lookup.filter (fun c => ex.contains c.id)).map
        (fun c => "(" ++ c.name ++ ")"))] ∧
    id_to_name enumDedup [.dict ⟨some 9, some [1, 2, 3]⟩] [⟨9, "R"⟩] [⟨1, "A"⟩] =
      .ok ["R(A)"] ∧
    id_to_name enumDedup [.dict ⟨some 9, some [1]⟩] [⟨9, "R"⟩] [⟨1, "A"⟩, ⟨1, "B"⟩] =
      .ok ["R(A)(B)"] := by
  refine ⟨?_, rfl, rfl⟩
  simp [id_to_name, entryTruthy, resolveEntry, resolveDict, hb, resolveExtras, hex]
  rfl

/-- Witness for C10: extra ids 2 and 3 are absent from the one-row extras
catalog; the reference still resolves and only the matching row
contributes a suffix. -/
theorem c10_unmatched_extra_skipped_witness :
    id_to_name enumDedup [.dict ⟨some 9, some [1, 2, 3]⟩] [⟨9, "R"⟩] [⟨1, "A"⟩] =
      .ok ["R" ++ String.join ((([⟨1, "A"⟩] : List CatEntry).filter
        (fun c => ([1, 2, 3] : List Int).contains c.id)).map (fun c => "(" ++ c.name ++ ")"))] :=
  (c10_unmatched_extra_skipped enumDedup [⟨9, "R"⟩] [⟨1, "A"⟩] 9 "R" [] [1, 2, 3]
    rfl (by decide)).1
